import Mathlib

/-!
# Type conversion registries of the Avro codec (`typeconverter.go`)

A shallow embedding of `typeconverter.go`: the composite type tag built by
`SpecificType`, the encoder registry keyed by (runtime type, schema type) and
the decoder registry keyed by schema type, together with the properties of
registration and conversion that the specification states.

Conventions of the embedding

* Go `string`-based types (`Type`, `LogicalType`) are Lean `String`s; `len`
  is the byte length.
* A Go `any` is a `GoAny`: the nil interface or a value of a concrete dynamic
  type. A `*any` carries the content of the cell it points to, so a write
  through the pointer is an updated `*any` returned to the caller.
* A Go `error` is `Option String` (`none` is the nil error).
* A run-time panic is `Except.error`; a call that returns normally is
  `Except.ok`.
* `sync.Map` is modelled sequentially as a finite key/value store.
* A method with a pointer receiver that writes to the registry returns the
  new registry.
* A conversion function is a pure function of its argument, except in the
  section on conversion functions that register, where it may also store
  into the registry while it runs.
-/

namespace Avro

/-! ## Go values -/

/-- Concrete dynamic types a Go interface value can carry. `other id` stands
for any type not listed, identified by `id`. -/
inductive GoType where
  | bool
  | int
  | int32
  | int64
  | float32
  | float64
  | string
  | bigRat
  | ptrAny
  | other (id : Nat)
  deriving DecidableEq, Repr

/-- Go `any`. `ptrAny c` is a non-nil `*any` whose cell currently holds `c`;
`nilPtrAny` is `(*any)(nil)`; `other id repr` is a value of the type
`GoType.other id`. Floating point values are kept as their bit pattern. -/
inductive GoAny where
  | nil
  | bool (b : Bool)
  | int (n : Int)
  | int32 (n : Int)
  | int64 (n : Int)
  | float32 (bits : Nat)
  | float64 (bits : Nat)
  | string (s : String)
  | bigRat (num : Int) (den : Nat)
  | ptrAny (cell : GoAny)
  | nilPtrAny
  | other (id : Nat) (repr : List Nat)
  deriving DecidableEq, Repr

/-- Go `error`: `none` is the nil error, `some msg` an error with message `msg`. -/
abbrev GoError := Option String

/-- Message of a run-time panic. -/
abbrev Panic := String

/-- The dynamic type of an interface value; the nil interface has none. -/
def GoAny.dynType : GoAny → Option GoType
  | .nil => none
  | .bool _ => some .bool
  | .int _ => some .int
  | .int32 _ => some .int32
  | .int64 _ => some .int64
  | .float32 _ => some .float32
  | .float64 _ => some .float64
  | .string _ => some .string
  | .bigRat _ _ => some .bigRat
  | .ptrAny _ => some .ptrAny
  | .nilPtrAny => some .ptrAny
  | .other id _ => some (.other id)

/-- Address of the runtime type descriptor of a concrete type (a non-zero
`uintptr`, one per type). -/
def GoType.rtype : GoType → Nat
  | .bool => 1
  | .int => 2
  | .int32 => 3
  | .int64 => 4
  | .float32 => 5
  | .float64 => 6
  | .string => 7
  | .bigRat => 8
  | .ptrAny => 9
  | .other id => 10 + id

/-- Library call `reflect2.RTypeOf(obj)`: the type word of the interface value, 0 for
the nil interface. -/
def reflect2_RTypeOf (obj : GoAny) : Nat :=
  match obj.dynType with
  | none => 0
  | some t => t.rtype

/-- Library call `reflect2.TypeOf(obj).RType()`: `TypeOf` of the nil interface is a nil
`reflect2.Type`, on which the method call panics. -/
def reflect2_TypeOf_RType (obj : GoAny) : Except Panic Nat :=
  match obj.dynType with
  | none => .error "invalid memory address or nil pointer dereference"
  | some t => .ok t.rtype

/-- Go `len` of a string: its length in bytes. -/
def len (s : String) : Nat := s.utf8ByteSize

/-! ## `sync.Map` -/

/-- Sequential model of `sync.Map`: the entries, at most one per key once
built by `Store` from the zero value. -/
structure SyncMap (κ : Type) (ν : Type) where
  entries : List (κ × ν)

/-- The zero value of `sync.Map` is an empty map. -/
def SyncMap.zero {κ ν : Type} : SyncMap κ ν := ⟨[]⟩

/-- Method `(*sync.Map).Store`: sets the value for a key, replacing any earlier one. -/
def SyncMap.Store {κ ν : Type} [DecidableEq κ] (m : SyncMap κ ν) (key : κ) (value : ν) :
    SyncMap κ ν :=
  ⟨(key, value) :: m.entries.filter (fun e => decide (e.1 ≠ key))⟩

/-- Method `(*sync.Map).Load`: the value stored for a key, `none` standing for `ok == false`. -/
def SyncMap.Load {κ ν : Type} [DecidableEq κ] (m : SyncMap κ ν) (key : κ) : Option ν :=
  (m.entries.find? (fun e => decide (e.1 = key))).map Prod.snd

/-! ## Schema -/

/-- Go `type Type string`. -/
abbrev Type_ := String

/-- Go `type LogicalType string`. -/
abbrev LogicalType := String

/-- Modelled from the spec: the `Schema` interface is declared outside
`typeconverter.go`; the specification gives it a base type tag and a logical
type tag that is empty when none is declared. -/
structure Schema where
  baseType : Type_
  logicalType : LogicalType
  deriving DecidableEq, Repr

/-- Method `schema.Type()`. -/
def Schema.Type (schema : Schema) : Type_ := schema.baseType

/-- Modelled from the spec: `getLogicalType` is defined outside
`typeconverter.go`; it yields the schema's logical type tag, empty when the
schema declares none. -/
def getLogicalType (schema : Schema) : LogicalType := schema.logicalType

/-! ## `typeconverter.go` -/

/-- Go struct `encoderTypeConversion`, the key of the encoder registry. -/
structure encoderTypeConversion where
  «from» : Nat
  «to» : Type_
  deriving DecidableEq, Repr

/-- SpecificType combines the main data type with a logical type to create a
specific type. -/
def SpecificType (typ : Type_) (lt : LogicalType) : Type_ :=
  typ ++ "." ++ lt

/-- ConversionFn is the signature of the user-provided type conversion
function: it returns a value and an error, or panics. -/
abbrev ConversionFn := GoAny → Except Panic (GoAny × GoError)

/-- EncoderTypeConverter holds the user-provided type conversion functions for
encoding. -/
structure EncoderTypeConverter where
  fns : SyncMap encoderTypeConversion ConversionFn

/-- NewEncoderTypeConverter creates a new type converter for encoding. -/
def NewEncoderTypeConverter : EncoderTypeConverter := ⟨SyncMap.zero⟩

/-- RegisterEncoderTypeConversion registers a type conversion function for
encoding to the specified data type. -/
def EncoderTypeConverter.RegisterEncoderTypeConversion (r : EncoderTypeConverter)
    (obj : GoAny) (typ : Type_) (fn : ConversionFn) : Except Panic EncoderTypeConverter :=
  match reflect2_TypeOf_RType obj with
  | .error p => .error p
  | .ok rtype => .ok ⟨r.fns.Store ⟨rtype, typ⟩ fn⟩

/-- The type tag both `Convert` methods look a schema up under (lines 40-43
and 83-86 of `typeconverter.go`): the schema's type, replaced by the specific
type when the schema has a non-empty logical type. -/
def conversionType (schema : Schema) : Type_ :=
  let typ := schema.Type
  let lt := getLogicalType schema
  if len lt > 0 then SpecificType typ lt else typ

/-- Convert runs the conversion function for the given value and schema. -/
def EncoderTypeConverter.Convert (r : EncoderTypeConverter) («in» : GoAny) (schema : Schema) :
    Except Panic (GoAny × GoError) :=
  let typ := conversionType schema
  match r.fns.Load ⟨reflect2_RTypeOf «in», typ⟩ with
  | none => .ok («in», none)
  | some fn => fn «in»

/-- Go struct `decoderConversion`, the key of the decoder registry. -/
structure decoderConversion where
  «from» : Type_
  deriving DecidableEq, Repr

/-- DecoderTypeConverter holds the user-provided type conversion functions for
decoding. -/
structure DecoderTypeConverter where
  fns : SyncMap decoderConversion ConversionFn

/-- NewDecoderTypeConverter creates a new type converter for decoding. -/
def NewDecoderTypeConverter : DecoderTypeConverter := ⟨SyncMap.zero⟩

/-- RegisterDecoderTypeConversion registers a type conversion function for
decoding from the specified data type. -/
def DecoderTypeConverter.RegisterDecoderTypeConversion (r : DecoderTypeConverter)
    (typ : Type_) (fn : ConversionFn) : DecoderTypeConverter :=
  ⟨r.fns.Store ⟨typ⟩ fn⟩

/-- Convert runs the conversion function for the given schema and value. The
result is the returned error together with `in` as the caller sees it
afterwards (the cell behind a `*any` may have been overwritten). -/
def DecoderTypeConverter.Convert (r : DecoderTypeConverter) (schema : Schema) («in» : GoAny) :
    Except Panic (GoError × GoAny) :=
  match «in» with
  | .ptrAny cell =>
    let typ := conversionType schema
    match r.fns.Load ⟨typ⟩ with
    | none => .ok (none, .ptrAny cell)
    | some fn =>
      match fn cell with
      | .error p => .error p
      | .ok (val, err) =>
        match err with
        | some e => .ok (some e, .ptrAny .nil)
        | none => .ok (none, .ptrAny val)
  | .nilPtrAny =>
    let typ := conversionType schema
    match r.fns.Load ⟨typ⟩ with
    | none => .ok (none, .nilPtrAny)
    | some _ => .error "invalid memory address or nil pointer dereference"
  | other => .ok (none, other)

/-! ## The registry after a call of the decoder

The decoder's `Convert` with the registry threaded through: every access to
`r.fns` yields the map as it is after the access, and the method yields the
registry as it is when the call ends. -/

/-- Method `(*sync.Map).Load` with the map after the call: a load leaves the
entries as they are. -/
def SyncMap.LoadSt {κ ν : Type} [DecidableEq κ] (m : SyncMap κ ν) (key : κ) :
    Option ν × SyncMap κ ν :=
  (m.Load key, m)

/-- Convert of the decoder, with the registry after the call. -/
def DecoderTypeConverter.ConvertSt (r : DecoderTypeConverter) (schema : Schema)
    («in» : GoAny) : Except Panic (GoError × GoAny) × DecoderTypeConverter :=
  match «in» with
  | .ptrAny cell =>
    let typ := conversionType schema
    match r.fns.LoadSt ⟨typ⟩ with
    | (none, fns) => (.ok (none, .ptrAny cell), ⟨fns⟩)
    | (some fn, fns) =>
      match fn cell with
      | .error p => (.error p, ⟨fns⟩)
      | .ok (val, err) =>
        match err with
        | some e => (.ok (some e, .ptrAny .nil), ⟨fns⟩)
        | none => (.ok (none, .ptrAny val), ⟨fns⟩)
  | .nilPtrAny =>
    let typ := conversionType schema
    match r.fns.LoadSt ⟨typ⟩ with
    | (none, fns) => (.ok (none, .nilPtrAny), ⟨fns⟩)
    | (some _, fns) => (.error "invalid memory address or nil pointer dereference", ⟨fns⟩)
  | other => (.ok (none, other), r)

/-! ## Conversion functions used in the examples -/

/-- The decoder conversion of `TestDecoderTypeConversion_Single`: a boolean
becomes "yes" or "no"; the type assertion panics on anything else. -/
def boolToYesNo : ConversionFn
  | .bool true => .ok (.string "yes", none)
  | .bool false => .ok (.string "no", none)
  | _ => .error "interface conversion: interface is not bool"

/-- The decoder conversion of `TestDecoderTypeConversion_Error`: a long is
narrowed to an int32 and rejected when it is out of range. -/
def longToInt32 : ConversionFn
  | .int64 i =>
    if i > 2147483647 then .ok (.int32 0, some (toString i ++ " is out range for int32"))
    else .ok (.int32 i, none)
  | _ => .error "interface conversion: interface is not int64"

/-- An encoder conversion in the manner of `TestEncoderTypeConversion_Error`,
on strings: the empty string is rejected, any other string is measured. -/
def stringToInt : ConversionFn
  | .string s =>
    if s = "" then .ok (.int 0, some "empty string is not an integer")
    else .ok (.int s.length, none)
  | _ => .error "interface conversion: interface is not string"

/-- A conversion that accepts every value and returns the integer 7. -/
def constSeven : ConversionFn := fun _ => .ok (.int 7, none)

/-- A registry holding `stringToInt` for strings encoded as "int". -/
def stringRegistry : EncoderTypeConverter :=
  ⟨SyncMap.zero.Store ⟨GoType.string.rtype, "int"⟩ stringToInt⟩

/-- A registry holding `longToInt32` for values decoded from "long". -/
def longRegistry : DecoderTypeConverter :=
  NewDecoderTypeConverter.RegisterDecoderTypeConversion "long" longToInt32

/-- A registry holding `boolToYesNo` for values decoded from "boolean". -/
def booleanRegistry : DecoderTypeConverter :=
  NewDecoderTypeConverter.RegisterDecoderTypeConversion "boolean" boolToYesNo

/-- An encoder registry holding `stringToInt` for strings under the bare
base type "fixed" only. -/
def bareFixedEncoder : EncoderTypeConverter :=
  ⟨SyncMap.zero.Store ⟨GoType.string.rtype, "fixed"⟩ stringToInt⟩

/-- A decoder registry holding `constSeven` under the bare base type "fixed"
only. -/
def bareFixedDecoder : DecoderTypeConverter :=
  NewDecoderTypeConverter.RegisterDecoderTypeConversion "fixed" constSeven

/-- The encoder conversion of `TestEncoderTypeConversion_RecordMap` for
"fixed.decimal", simplified: a string becomes the rational whose numerator
is its length. -/
def stringToRat : ConversionFn
  | .string s => .ok (.bigRat s.length 1, none)
  | _ => .error "interface conversion: interface is not string"

/-! ## Conversion functions that register

A `ConversionFn` is a Go closure. It may hold the registry it is stored in (or
reach the process-wide one) and call a register method on it while it runs, at
lines 49 and 92 of `typeconverter.go`. The definitions of this section embed
the same methods with such functions: running a function yields what it
returns together with the registrations it made, and `Convert` yields the
registry as it is when the call ends. -/

namespace Reentrant

/-- ConversionFn as a closure that may register: `run v` is what the call on
`v` returns (or its panic) and the registrations the call made on the
registry, in order, each a key and the function stored under it. -/
inductive ConversionFn (κ : Type) where
  | mk (run : GoAny → Except Panic (GoAny × GoError) × List (κ × ConversionFn κ))

/-- The call of a conversion function on a value. -/
def ConversionFn.run {κ : Type} :
    ConversionFn κ → GoAny → Except Panic (GoAny × GoError) × List (κ × ConversionFn κ)
  | .mk run => run

/-- A conversion function that makes no registration. -/
def ConversionFn.quiet {κ : Type} (f : Avro.ConversionFn) : ConversionFn κ :=
  .mk fun v => (f v, [])

/-- The map after a sequence of `Store` calls. -/
def storeAll {κ ν : Type} [DecidableEq κ] (m : SyncMap κ ν) (regs : List (κ × ν)) :
    SyncMap κ ν :=
  regs.foldl (fun acc e => acc.Store e.1 e.2) m

/-- EncoderTypeConverter holds the user-provided type conversion functions for
encoding. -/
structure EncoderTypeConverter where
  fns : SyncMap encoderTypeConversion (ConversionFn encoderTypeConversion)

/-- NewEncoderTypeConverter creates a new type converter for encoding. -/
def NewEncoderTypeConverter : EncoderTypeConverter := ⟨SyncMap.zero⟩

/-- RegisterEncoderTypeConversion registers a type conversion function for
encoding to the specified data type. -/
def EncoderTypeConverter.RegisterEncoderTypeConversion (r : EncoderTypeConverter)
    (obj : GoAny) (typ : Type_) (fn : ConversionFn encoderTypeConversion) :
    Except Panic EncoderTypeConverter :=
  match reflect2_TypeOf_RType obj with
  | .error p => .error p
  | .ok rtype => .ok ⟨r.fns.Store ⟨rtype, typ⟩ fn⟩

/-- Convert runs the conversion function for the given value and schema; the
second component is the registry when the call ends. -/
def EncoderTypeConverter.Convert (r : EncoderTypeConverter) («in» : GoAny) (schema : Schema) :
    Except Panic (GoAny × GoError) × EncoderTypeConverter :=
  let typ := conversionType schema
  match r.fns.Load ⟨reflect2_RTypeOf «in», typ⟩ with
  | none => (.ok («in», none), r)
  | some fn => ((fn.run «in»).1, ⟨storeAll r.fns (fn.run «in»).2⟩)

/-- DecoderTypeConverter holds the user-provided type conversion functions for
decoding. -/
structure DecoderTypeConverter where
  fns : SyncMap decoderConversion (ConversionFn decoderConversion)

/-- NewDecoderTypeConverter creates a new type converter for decoding. -/
def NewDecoderTypeConverter : DecoderTypeConverter := ⟨SyncMap.zero⟩

/-- RegisterDecoderTypeConversion registers a type conversion function for
decoding from the specified data type. -/
def DecoderTypeConverter.RegisterDecoderTypeConversion (r : DecoderTypeConverter)
    (typ : Type_) (fn : ConversionFn decoderConversion) : DecoderTypeConverter :=
  ⟨r.fns.Store ⟨typ⟩ fn⟩

/-- Convert runs the conversion function for the given schema and value; the
result is the returned error with `in` as the caller sees it afterwards, and
the registry when the call ends. -/
def DecoderTypeConverter.Convert (r : DecoderTypeConverter) (schema : Schema) («in» : GoAny) :
    Except Panic (GoError × GoAny) × DecoderTypeConverter :=
  match «in» with
  | .ptrAny cell =>
    let typ := conversionType schema
    match r.fns.Load ⟨typ⟩ with
    | none => (.ok (none, .ptrAny cell), r)
    | some fn =>
      let after : DecoderTypeConverter := ⟨storeAll r.fns (fn.run cell).2⟩
      match (fn.run cell).1 with
      | .error p => (.error p, after)
      | .ok (val, err) =>
        match err with
        | some e => (.ok (some e, .ptrAny .nil), after)
        | none => (.ok (none, .ptrAny val), after)
  | .nilPtrAny =>
    let typ := conversionType schema
    match r.fns.Load ⟨typ⟩ with
    | none => (.ok (none, .nilPtrAny), r)
    | some _ => (.error "invalid memory address or nil pointer dereference", r)
  | other => (.ok (none, other), r)

/-- A registry of functions that make no registration, as a registry of this
section. -/
def EncoderTypeConverter.ofQuiet (r : Avro.EncoderTypeConverter) : EncoderTypeConverter :=
  ⟨⟨r.fns.entries.map fun e => (e.1, ConversionFn.quiet e.2)⟩⟩

/-- A decoder registry of functions that make no registration, as a registry
of this section. -/
def DecoderTypeConverter.ofQuiet (r : Avro.DecoderTypeConverter) : DecoderTypeConverter :=
  ⟨⟨r.fns.entries.map fun e => (e.1, ConversionFn.quiet e.2)⟩⟩

/-- A conversion function that returns its input unchanged and, while it runs,
registers `constSeven` under `key`. -/
def thenSeven {κ : Type} (key : κ) : ConversionFn κ :=
  .mk fun v => (.ok (v, none), [(key, ConversionFn.quiet constSeven)])

/-- An encoder registry whose function for strings encoded as "int" replaces
itself by `constSeven` when it runs. -/
def selfReplacingEncoder : EncoderTypeConverter :=
  ⟨SyncMap.zero.Store ⟨GoType.string.rtype, "int"⟩ (thenSeven ⟨GoType.string.rtype, "int"⟩)⟩

/-- A decoder registry whose function for "long" replaces itself by
`constSeven` when it runs. -/
def selfReplacingDecoder : DecoderTypeConverter :=
  NewDecoderTypeConverter.RegisterDecoderTypeConversion "long" (thenSeven ⟨"long"⟩)

end Reentrant

/-! ## Facts about the model of `sync.Map` and of `len` -/

theorem SyncMap.Load_zero {κ ν : Type} [DecidableEq κ] (key : κ) :
    (SyncMap.zero : SyncMap κ ν).Load key = none := rfl

theorem SyncMap.Load_Store_self {κ ν : Type} [DecidableEq κ] (m : SyncMap κ ν) (key : κ)
    (value : ν) : (m.Store key value).Load key = some value := by
  simp [SyncMap.Store, SyncMap.Load]

theorem SyncMap.Load_Store_of_ne {κ ν : Type} [DecidableEq κ] (m : SyncMap κ ν)
    (key key' : κ) (value : ν) (h : key' ≠ key) :
    (m.Store key value).Load key' = m.Load key' := by
  have hne : ¬ key = key' := fun e => h e.symm
  simp only [SyncMap.Store, SyncMap.Load, List.find?_cons, hne, decide_False]
  congr 1
  rw [List.find?_filter]
  congr 1
  funext a
  by_cases ha : a.1 = key'
  · have hak : ¬ a.1 = key := fun e => h (ha.symm.trans e)
    simp [ha, hak, h]
  · simp [ha]

theorem len_pos_iff (s : String) : len s > 0 ↔ s ≠ "" := by
  rcases s with ⟨cs⟩
  cases cs with
  | nil => simp [len, String.utf8ByteSize, String.utf8ByteSize.go]
  | cons c cs =>
    have hc := Char.utf8Size_pos c
    have hne : (⟨c :: cs⟩ : String) ≠ "" := by
      intro e
      have := congrArg String.data e
      simp at this
    simp only [len, String.utf8ByteSize, String.utf8ByteSize.go, gt_iff_lt, ne_eq, hne,
      not_false_eq_true, iff_true]
    omega

theorem conversionType_of_empty (schema : Schema) (h : getLogicalType schema = "") :
    conversionType schema = schema.Type := by
  have : ¬ len (getLogicalType schema) > 0 := by
    rw [len_pos_iff]; simp [h]
  simp only [conversionType, this, if_false]

theorem conversionType_of_nonempty (schema : Schema) (h : getLogicalType schema ≠ "") :
    conversionType schema = SpecificType schema.Type (getLogicalType schema) := by
  have : len (getLogicalType schema) > 0 := (len_pos_iff _).2 h
  simp only [conversionType, this, if_true]

theorem reflect2_RTypeOf_of_dynType (v : GoAny) (t : GoType) (h : v.dynType = some t) :
    reflect2_RTypeOf v = t.rtype := by
  simp [reflect2_RTypeOf, h]

theorem reflect2_TypeOf_RType_of_dynType (v : GoAny) (t : GoType) (h : v.dynType = some t) :
    reflect2_TypeOf_RType v = .ok t.rtype := by
  simp [reflect2_TypeOf_RType, h]

/-! ## The composite type tag -/

/-- C1, as stated, fails: with an empty logical type `SpecificType` does not
return the base type; `SpecificType("int", "")` is "int.", not "int". -/
theorem SpecificType_empty_counterexample :
    SpecificType "int" "" = "int." ∧ SpecificType "int" "" ≠ "int" := by
  decide

/-- C1, amended: with an empty logical type `SpecificType(typ, lt)` returns
`typ` followed by the separator ".", which is never `typ` itself; the base
type is kept unchanged by the callers instead: for a schema whose logical type
is empty, the type both `Convert` methods look up is `schema.Type()`, without
a call to `SpecificType`. -/
theorem SpecificType_empty (typ : Type_) (schema : Schema)
    (h : getLogicalType schema = "") :
    SpecificType typ "" = typ ++ "." ∧ SpecificType typ "" ≠ typ ∧
      conversionType schema = schema.Type := by
  refine ⟨?_, ?_, conversionType_of_empty schema h⟩
  · simp [SpecificType]
  · intro e
    have hlen := congrArg String.length e
    simp [SpecificType, String.length_append] at hlen
    exact absurd hlen (by decide)

/-- Witness of `SpecificType_empty`: the base type "int" and the schema of a
plain "int". -/
theorem SpecificType_empty_witness :
    SpecificType "int" "" = "int" ++ "." ∧ SpecificType "int" "" ≠ "int" ∧
      conversionType ⟨"int", ""⟩ = Schema.Type ⟨"int", ""⟩ :=
  SpecificType_empty "int" ⟨"int", ""⟩ (by decide)

/-- C2: for every base type `typ` and every non-empty logical type `lt`,
`SpecificType(typ, lt)` is the concatenation `typ + "." + lt`: the characters
of `typ`, then the separator, then the characters of `lt`. -/
theorem SpecificType_nonempty (typ : Type_) (lt : LogicalType) (h : lt ≠ "") :
    SpecificType typ lt = typ ++ "." ++ lt ∧
      (SpecificType typ lt).toList = typ.toList ++ '.' :: lt.toList := by
  have _ := h
  refine ⟨rfl, ?_⟩
  simp [SpecificType, String.toList]

/-- Witness of `SpecificType_nonempty`: `SpecificType("fixed", "decimal")` is
"fixed.decimal". -/
theorem SpecificType_nonempty_witness :
    SpecificType "fixed" "decimal" = "fixed.decimal" :=
  (SpecificType_nonempty "fixed" "decimal" (by decide)).1.trans (by decide)

/-! ## Conversions that are not registered -/

/-- C3: when no function is stored under the key (type token of `v`,
composite type of the schema), the encoder's `Convert(v, schema)` returns `v`
itself and a nil error; on a registry fresh from `NewEncoderTypeConverter`
this is so for every value and every schema. -/
theorem encoder_Convert_unregistered (r : EncoderTypeConverter) (v : GoAny)
    (schema : Schema)
    (h : r.fns.Load ⟨reflect2_RTypeOf v, conversionType schema⟩ = none) :
    r.Convert v schema = .ok (v, none) ∧
      ∀ (v' : GoAny) (schema' : Schema),
        NewEncoderTypeConverter.Convert v' schema' = .ok (v', none) := by
  constructor
  · simp only [EncoderTypeConverter.Convert, h]
  · intro v' schema'
    simp only [EncoderTypeConverter.Convert, NewEncoderTypeConverter, SyncMap.Load_zero]

/-- Witness of `encoder_Convert_unregistered`: a registry that
converts strings to "int" passes a string through for a "string" schema. -/
theorem encoder_Convert_unregistered_witness :
    stringRegistry.Convert (.string "abc") ⟨"string", ""⟩ = .ok (.string "abc", none) :=
  (encoder_Convert_unregistered stringRegistry (.string "abc") ⟨"string", ""⟩
    (by rfl)).1

/-- C4: when no function is stored under the schema's composite type, the
decoder's `Convert(schema, slot)` on a dynamic slot (a `*any`, nil or not)
returns a nil error and leaves the slot as it was. -/
theorem decoder_Convert_unregistered (r : DecoderTypeConverter) (schema : Schema)
    (slot : GoAny) (hslot : slot.dynType = some .ptrAny)
    (h : r.fns.Load ⟨conversionType schema⟩ = none) :
    r.Convert schema slot = .ok (none, slot) := by
  cases slot <;> simp [GoAny.dynType] at hslot <;>
    simp only [DecoderTypeConverter.Convert, h]

/-- Witness of `decoder_Convert_unregistered`: a registry that
converts "boolean" leaves a slot decoded from "long" alone. -/
theorem decoder_Convert_unregistered_witness :
    booleanRegistry.Convert ⟨"long", ""⟩ (.ptrAny (.int64 5)) = .ok (none, .ptrAny (.int64 5)) :=
  decoder_Convert_unregistered booleanRegistry ⟨"long", ""⟩ (.ptrAny (.int64 5))
    (by rfl) (by rfl)

/-! ## Registered conversions -/

/-- C5: registering `f` for a sample `s` and destination type `d` returns,
and afterwards `Convert(v, schema)`, for any `v` of the same concrete runtime
type as `s` and any schema whose composite type is `d`, returns exactly what
`f(v)` returns, value and error alike. -/
theorem encoder_Convert_registered (r : EncoderTypeConverter) (s : GoAny)
    (d : Type_) (f : ConversionFn) (v : GoAny) (schema : Schema) (t : GoType)
    (hs : s.dynType = some t) (hv : v.dynType = some t)
    (hd : conversionType schema = d) :
    ∃ r', r.RegisterEncoderTypeConversion s d f = .ok r' ∧ r'.Convert v schema = f v := by
  refine ⟨⟨r.fns.Store ⟨t.rtype, d⟩ f⟩, ?_, ?_⟩
  · simp only [EncoderTypeConverter.RegisterEncoderTypeConversion,
      reflect2_TypeOf_RType_of_dynType s t hs]
  · simp only [EncoderTypeConverter.Convert, hd, reflect2_RTypeOf_of_dynType v t hv,
      SyncMap.Load_Store_self]

/-- Witness of `encoder_Convert_registered`: `stringToInt`
registered with the sample "" for "int" converts the string "abc". -/
theorem encoder_Convert_registered_witness :
    ∃ r', NewEncoderTypeConverter.RegisterEncoderTypeConversion (.string "") "int" stringToInt
        = .ok r' ∧
      r'.Convert (.string "abc") ⟨"int", ""⟩ = stringToInt (.string "abc") :=
  encoder_Convert_registered NewEncoderTypeConverter (.string "") "int"
    stringToInt (.string "abc") ⟨"int", ""⟩ .string (by rfl) (by rfl) (by decide)

/-- C6: after `RegisterDecoderTypeConversion(t, f)`, for a schema whose
composite type is `t` and a dynamic slot holding `v`, if `f(v)` returns
`(w, nil)` then `Convert(schema, slot)` returns a nil error and the slot holds
`w`. -/
theorem decoder_Convert_success (r : DecoderTypeConverter)
    (t : Type_) (f : ConversionFn) (schema : Schema) (v w : GoAny)
    (hd : conversionType schema = t) (hf : f v = .ok (w, none)) :
    (r.RegisterDecoderTypeConversion t f).Convert schema (.ptrAny v)
      = .ok (none, .ptrAny w) := by
  simp only [DecoderTypeConverter.Convert, DecoderTypeConverter.RegisterDecoderTypeConversion,
    hd, SyncMap.Load_Store_self, hf]

/-- Witness of `decoder_Convert_success`: the
conversion of `TestDecoderTypeConversion_Single` turns a decoded `true` into
"yes". -/
theorem decoder_Convert_success_witness :
    (NewDecoderTypeConverter.RegisterDecoderTypeConversion "boolean" boolToYesNo).Convert
        ⟨"boolean", ""⟩ (.ptrAny (.bool true))
      = .ok (none, .ptrAny (.string "yes")) :=
  decoder_Convert_success NewDecoderTypeConverter "boolean"
    boolToYesNo ⟨"boolean", ""⟩ (.bool true) (.string "yes") (by decide) (by rfl)

/-! ## Errors of the conversion function -/

/-- C7: if the function stored under the schema's composite type returns
`(w, err)` with a non-nil `err` on the slot's value `v`, the decoder's
`Convert` returns that same `err` and the slot holds nil afterwards, whatever
`v` and `w` were. -/
theorem decoder_Convert_failure (r : DecoderTypeConverter)
    (schema : Schema) (v : GoAny) (f : ConversionFn) (w : GoAny) (e : String)
    (hload : r.fns.Load ⟨conversionType schema⟩ = some f)
    (hf : f v = .ok (w, some e)) :
    r.Convert schema (.ptrAny v) = .ok (some e, .ptrAny .nil) := by
  simp only [DecoderTypeConverter.Convert, hload, hf]

/-- Witness of `decoder_Convert_failure`: the
conversion of `TestDecoderTypeConversion_Error` rejects 2147483648; the slot
ends up nil, neither the decoded int64 nor the returned int32. -/
theorem decoder_Convert_failure_witness :
    longRegistry.Convert ⟨"long", ""⟩ (.ptrAny (.int64 2147483648))
      = .ok (some "2147483648 is out range for int32", .ptrAny .nil) :=
  decoder_Convert_failure longRegistry ⟨"long", ""⟩
    (.int64 2147483648) longToInt32 (.int32 0) "2147483648 is out range for int32"
    (by rfl) (by rfl)

/-- C8: the encoder's `Convert(v, schema)` returns a non-nil error `e` if and
only if a function `f` is stored under the key (type token of `v`, composite
type of the schema) and `f(v)` returns the error `e`; the value returned with
it is the one `f` returned. -/
theorem encoder_Convert_error_iff (r : EncoderTypeConverter) (v : GoAny)
    (schema : Schema) (out : GoAny) (e : String) :
    r.Convert v schema = .ok (out, some e) ↔
      ∃ f, r.fns.Load ⟨reflect2_RTypeOf v, conversionType schema⟩ = some f ∧
        f v = .ok (out, some e) := by
  cases hl : r.fns.Load ⟨reflect2_RTypeOf v, conversionType schema⟩ with
  | none => simp [EncoderTypeConverter.Convert, hl]
  | some f => simp [EncoderTypeConverter.Convert, hl]

/-! ## Last writer wins -/

/-- C9: after registering `A` under (`s1`, `d`) and then `B` under
(`s2`, `d`), where `s1` and `s2` have the same runtime type, both
registrations return and `Convert(v, schema)`, for any `v` of that type and
any schema with composite type `d`, returns `B(v)`: the function stored under
the key is `B`, and the result is the one obtained when `A` was never
registered. -/
theorem encoder_Convert_last_registered (r : EncoderTypeConverter)
    (s1 s2 : GoAny) (d : Type_) (A B : ConversionFn) (v : GoAny) (schema : Schema)
    (t : GoType) (h1 : s1.dynType = some t) (h2 : s2.dynType = some t)
    (hv : v.dynType = some t) (hd : conversionType schema = d) :
    ∃ r1 r2 rB, r.RegisterEncoderTypeConversion s1 d A = .ok r1 ∧
      r1.RegisterEncoderTypeConversion s2 d B = .ok r2 ∧
      r.RegisterEncoderTypeConversion s2 d B = .ok rB ∧
      r2.fns.Load ⟨reflect2_RTypeOf v, d⟩ = some B ∧
      r2.Convert v schema = B v ∧
      r2.Convert v schema = rB.Convert v schema := by
  refine ⟨⟨r.fns.Store ⟨t.rtype, d⟩ A⟩, ⟨(r.fns.Store ⟨t.rtype, d⟩ A).Store ⟨t.rtype, d⟩ B⟩,
    ⟨r.fns.Store ⟨t.rtype, d⟩ B⟩, ?_, ?_, ?_, ?_, ?_, ?_⟩
  · simp only [EncoderTypeConverter.RegisterEncoderTypeConversion,
      reflect2_TypeOf_RType_of_dynType s1 t h1]
  · simp only [EncoderTypeConverter.RegisterEncoderTypeConversion,
      reflect2_TypeOf_RType_of_dynType s2 t h2]
  · simp only [EncoderTypeConverter.RegisterEncoderTypeConversion,
      reflect2_TypeOf_RType_of_dynType s2 t h2]
  · simp only [reflect2_RTypeOf_of_dynType v t hv, SyncMap.Load_Store_self]
  · simp only [EncoderTypeConverter.Convert, hd, reflect2_RTypeOf_of_dynType v t hv,
      SyncMap.Load_Store_self]
  · simp only [EncoderTypeConverter.Convert, hd, reflect2_RTypeOf_of_dynType v t hv,
      SyncMap.Load_Store_self]

/-- Witness of `encoder_Convert_last_registered`: `constSeven`
registered for strings to "int" after `stringToInt` is the one applied. -/
theorem encoder_Convert_last_registered_witness :
    ∃ r1 r2 rB,
      NewEncoderTypeConverter.RegisterEncoderTypeConversion (.string "") "int" stringToInt
        = .ok r1 ∧
      r1.RegisterEncoderTypeConversion (.string "x") "int" constSeven = .ok r2 ∧
      NewEncoderTypeConverter.RegisterEncoderTypeConversion (.string "x") "int" constSeven
        = .ok rB ∧
      r2.fns.Load ⟨reflect2_RTypeOf (.string "abc"), "int"⟩ = some constSeven ∧
      r2.Convert (.string "abc") ⟨"int", ""⟩ = constSeven (.string "abc") ∧
      r2.Convert (.string "abc") ⟨"int", ""⟩ = rB.Convert (.string "abc") ⟨"int", ""⟩ :=
  encoder_Convert_last_registered NewEncoderTypeConverter (.string "")
    (.string "x") "int" stringToInt constSeven (.string "abc") ⟨"int", ""⟩ .string
    (by rfl) (by rfl) (by rfl) (by decide)

/-- C10: after registering `A` under `t` and then `B` under `t`, the
decoder's `Convert(schema, slot)`, for any schema with composite type `t` and
dynamic slot holding `v`, is determined by `B(v)` alone: the slot is set to
the value `B` returned when `B` returned a nil error, and to nil, with the
error of `B` returned, otherwise (a panic of `B` is a panic of `Convert`). -/
theorem decoder_Convert_last_registered (r : DecoderTypeConverter)
    (t : Type_) (A B : ConversionFn) (schema : Schema) (v : GoAny)
    (hd : conversionType schema = t) :
    ((r.RegisterDecoderTypeConversion t A).RegisterDecoderTypeConversion t B).Convert
        schema (.ptrAny v)
      = match B v with
        | .error p => .error p
        | .ok (w, none) => .ok (none, .ptrAny w)
        | .ok (_, some e) => .ok (some e, .ptrAny .nil) := by
  simp only [DecoderTypeConverter.Convert, DecoderTypeConverter.RegisterDecoderTypeConversion,
    hd, SyncMap.Load_Store_self]
  rcases hB : B v with p | ⟨w, _ | e⟩ <;> rfl

/-- Witness of `decoder_Convert_last_registered`: with
`longToInt32` registered for "long" after `boolToYesNo`, a decoded long in
range is narrowed. -/
theorem decoder_Convert_last_registered_witness :
    ((NewDecoderTypeConverter.RegisterDecoderTypeConversion "long"
        boolToYesNo).RegisterDecoderTypeConversion "long" longToInt32).Convert
        ⟨"long", ""⟩ (.ptrAny (.int64 12))
      = .ok (none, .ptrAny (.int32 12)) :=
  (decoder_Convert_last_registered NewDecoderTypeConverter "long"
    boolToYesNo longToInt32 ⟨"long", ""⟩ (.int64 12) (by decide)).trans (by rfl)

/-! ## Keys of the registries -/

theorem GoType.rtype_injective (t1 t2 : GoType) (h : t1.rtype = t2.rtype) : t1 = t2 := by
  cases t1 <;> cases t2 <;> simp only [GoType.rtype] at h <;> first
    | rfl
    | (exfalso; omega)
    | (congr 1; omega)

theorem SpecificType_data (typ : Type_) (lt : LogicalType) :
    (SpecificType typ lt).data = typ.data ++ '.' :: lt.data := by
  simp [SpecificType]

theorem SpecificType_ne_base (typ : Type_) (lt : LogicalType) : SpecificType typ lt ≠ typ := by
  intro e
  have hlen := congrArg String.length e
  simp only [SpecificType, String.length_append] at hlen
  have h1 : ".".length = 1 := by decide
  omega

theorem encoderKey_ne_of_type (t1 t2 : GoType) (d : Type_) (hne : t1 ≠ t2) :
    (⟨t1.rtype, d⟩ : encoderTypeConversion) ≠ ⟨t2.rtype, d⟩ := by
  intro e
  injection e with h _
  exact hne (GoType.rtype_injective t1 t2 h)

/-! ## Shape discrimination -/

/-- C11: for samples `s1`, `s2` of two different runtime types and one
destination type `d`, after registering `f1` under (`s1`, `d`) and `f2` under
(`s2`, `d`), in either order, both registrations return and `Convert` on a
value of the type of `s1` with a schema of composite type `d` returns what
`f1` returns, while on a value of the type of `s2` it returns what `f2`
returns. -/
theorem encoder_Convert_by_shape (r : EncoderTypeConverter) (d : Type_)
    (s1 s2 v1 v2 : GoAny) (f1 f2 : ConversionFn) (schema : Schema) (t1 t2 : GoType)
    (hs1 : s1.dynType = some t1) (hs2 : s2.dynType = some t2) (hne : t1 ≠ t2)
    (hv1 : v1.dynType = some t1) (hv2 : v2.dynType = some t2)
    (hd : conversionType schema = d) :
    (∃ ra rb, r.RegisterEncoderTypeConversion s1 d f1 = .ok ra ∧
        ra.RegisterEncoderTypeConversion s2 d f2 = .ok rb ∧
        rb.Convert v1 schema = f1 v1 ∧ rb.Convert v2 schema = f2 v2) ∧
      (∃ ra rb, r.RegisterEncoderTypeConversion s2 d f2 = .ok ra ∧
        ra.RegisterEncoderTypeConversion s1 d f1 = .ok rb ∧
        rb.Convert v1 schema = f1 v1 ∧ rb.Convert v2 schema = f2 v2) := by
  have k12 := encoderKey_ne_of_type t1 t2 d hne
  have k21 := encoderKey_ne_of_type t2 t1 d (fun e => hne e.symm)
  constructor
  · refine ⟨⟨r.fns.Store ⟨t1.rtype, d⟩ f1⟩,
      ⟨(r.fns.Store ⟨t1.rtype, d⟩ f1).Store ⟨t2.rtype, d⟩ f2⟩, ?_, ?_, ?_, ?_⟩
    · simp only [EncoderTypeConverter.RegisterEncoderTypeConversion,
        reflect2_TypeOf_RType_of_dynType s1 t1 hs1]
    · simp only [EncoderTypeConverter.RegisterEncoderTypeConversion,
        reflect2_TypeOf_RType_of_dynType s2 t2 hs2]
    · simp only [EncoderTypeConverter.Convert, hd, reflect2_RTypeOf_of_dynType v1 t1 hv1,
        SyncMap.Load_Store_of_ne _ _ _ _ k12, SyncMap.Load_Store_self]
    · simp only [EncoderTypeConverter.Convert, hd, reflect2_RTypeOf_of_dynType v2 t2 hv2,
        SyncMap.Load_Store_self]
  · refine ⟨⟨r.fns.Store ⟨t2.rtype, d⟩ f2⟩,
      ⟨(r.fns.Store ⟨t2.rtype, d⟩ f2).Store ⟨t1.rtype, d⟩ f1⟩, ?_, ?_, ?_, ?_⟩
    · simp only [EncoderTypeConverter.RegisterEncoderTypeConversion,
        reflect2_TypeOf_RType_of_dynType s2 t2 hs2]
    · simp only [EncoderTypeConverter.RegisterEncoderTypeConversion,
        reflect2_TypeOf_RType_of_dynType s1 t1 hs1]
    · simp only [EncoderTypeConverter.Convert, hd, reflect2_RTypeOf_of_dynType v1 t1 hv1,
        SyncMap.Load_Store_self]
    · simp only [EncoderTypeConverter.Convert, hd, reflect2_RTypeOf_of_dynType v2 t2 hv2,
        SyncMap.Load_Store_of_ne _ _ _ _ k21, SyncMap.Load_Store_self]

/-- Witness of `encoder_Convert_by_shape`: `stringToInt` registered for
strings and `constSeven` for booleans, both to "int"; a string and a boolean
each get their own function. -/
theorem encoder_Convert_by_shape_witness :
    (∃ ra rb,
        NewEncoderTypeConverter.RegisterEncoderTypeConversion (.string "") "int" stringToInt
          = .ok ra ∧
        ra.RegisterEncoderTypeConversion (.bool false) "int" constSeven = .ok rb ∧
        rb.Convert (.string "abc") ⟨"int", ""⟩ = stringToInt (.string "abc") ∧
        rb.Convert (.bool true) ⟨"int", ""⟩ = constSeven (.bool true)) ∧
      (∃ ra rb,
        NewEncoderTypeConverter.RegisterEncoderTypeConversion (.bool false) "int" constSeven
          = .ok ra ∧
        ra.RegisterEncoderTypeConversion (.string "") "int" stringToInt = .ok rb ∧
        rb.Convert (.string "abc") ⟨"int", ""⟩ = stringToInt (.string "abc") ∧
        rb.Convert (.bool true) ⟨"int", ""⟩ = constSeven (.bool true)) :=
  encoder_Convert_by_shape NewEncoderTypeConverter "int" (.string "") (.bool false)
    (.string "abc") (.bool true) stringToInt constSeven ⟨"int", ""⟩ .string .bool
    (by rfl) (by rfl) (by decide) (by rfl) (by rfl) (by decide)

/-! ## Decoding into something that is not a dynamic slot -/

/-- C12: whatever the registry holds, the decoder's `Convert(schema, in)` with
an `in` that is not a `*any` returns a nil error and leaves `in` and the
registry as they were; the outcome does not depend on any stored function, so
none is invoked. -/
theorem decoder_Convert_not_slot (r : DecoderTypeConverter) (schema : Schema) («in» : GoAny)
    (h : «in».dynType ≠ some .ptrAny) :
    r.Convert schema «in» = .ok (none, «in») ∧
      r.ConvertSt schema «in» = (.ok (none, «in»), r) := by
  cases «in» <;> first
    | exact absurd rfl h
    | exact ⟨rfl, rfl⟩

/-- Witness of `decoder_Convert_not_slot`: with `boolToYesNo` registered for
"boolean", a plain `true` that is not behind a `*any` stays `true`. -/
theorem decoder_Convert_not_slot_witness :
    booleanRegistry.Convert ⟨"boolean", ""⟩ (.bool true) = .ok (none, .bool true) ∧
      booleanRegistry.ConvertSt ⟨"boolean", ""⟩ (.bool true)
        = (.ok (none, .bool true), booleanRegistry) :=
  decoder_Convert_not_slot booleanRegistry ⟨"boolean", ""⟩ (.bool true) (by decide)

/-! ## Composite tags are unambiguous -/

/-- C13: for base tags `b`, `b'` and non-empty logical tags `l`, `l'`, none of
which contains the separator ".", `SpecificType(b, l) = SpecificType(b', l')`
implies `b = b'` and `l = l'`, and `SpecificType(b, l)` differs from every
base tag that contains no ".". -/
theorem SpecificType_unambiguous (b b' : Type_) (l l' : LogicalType)
    (hl : l ≠ "") (hl' : l' ≠ "")
    (hb : '.' ∉ b.toList) (hb' : '.' ∉ b'.toList)
    (hdl : '.' ∉ l.toList) (hdl' : '.' ∉ l'.toList) :
    (SpecificType b l = SpecificType b' l' → b = b' ∧ l = l') ∧
      ∀ t : Type_, '.' ∉ t.toList → SpecificType b l ≠ t := by
  have _ := hl
  have _ := hl'
  have _ := hb'
  have _ := hdl'
  constructor
  · intro e
    have hdata := congrArg String.data e
    rw [SpecificType_data, SpecificType_data] at hdata
    have hsplit := (List.append_cons_inj_of_not_mem hb hdl).1 hdata
    exact ⟨String.ext hsplit.1, String.ext hsplit.2.2⟩
  · intro t ht e
    apply ht
    rw [← e]
    show '.' ∈ (SpecificType b l).data
    rw [SpecificType_data]
    simp

/-- Witness of `SpecificType_unambiguous`: "fixed" with "decimal" against
"bytes" with "decimal". -/
theorem SpecificType_unambiguous_witness :
    (SpecificType "fixed" "decimal" = SpecificType "bytes" "decimal" →
        "fixed" = "bytes" ∧ "decimal" = "decimal") ∧
      ∀ t : Type_, '.' ∉ t.toList → SpecificType "fixed" "decimal" ≠ t :=
  SpecificType_unambiguous "fixed" "bytes" "decimal" "decimal" (by decide) (by decide)
    (by decide) (by decide) (by decide) (by decide)

/-! ## The same composite key on both sides -/

/-- C14: for a schema with a non-empty logical type, a function registered
under `SpecificType(schema.Type(), lt)` is the one the encoder's `Convert`
applies to a value of the registered shape and the one the decoder's `Convert`
applies to a dynamic slot; for a schema (`schema0`) with no logical type the
same holds with the bare base type as the key. -/
theorem Convert_symmetric_dispatch (re : EncoderTypeConverter) (rd : DecoderTypeConverter)
    (schema schema0 : Schema) (s v cell : GoAny) (ty : GoType) (f g : ConversionFn)
    (hlt : getLogicalType schema ≠ "") (h0 : getLogicalType schema0 = "")
    (hs : s.dynType = some ty) (hv : v.dynType = some ty) :
    (∃ re', re.RegisterEncoderTypeConversion s
          (SpecificType schema.Type (getLogicalType schema)) f = .ok re' ∧
        re'.Convert v schema = f v) ∧
      (rd.RegisterDecoderTypeConversion
          (SpecificType schema.Type (getLogicalType schema)) g).Convert schema (.ptrAny cell)
        = (match g cell with
          | .error p => .error p
          | .ok (w, none) => .ok (none, .ptrAny w)
          | .ok (_, some e) => .ok (some e, .ptrAny .nil)) ∧
      (∃ re0, re.RegisterEncoderTypeConversion s schema0.Type f = .ok re0 ∧
        re0.Convert v schema0 = f v) ∧
      (rd.RegisterDecoderTypeConversion schema0.Type g).Convert schema0 (.ptrAny cell)
        = (match g cell with
          | .error p => .error p
          | .ok (w, none) => .ok (none, .ptrAny w)
          | .ok (_, some e) => .ok (some e, .ptrAny .nil)) := by
  have hk := conversionType_of_nonempty schema hlt
  have hk0 := conversionType_of_empty schema0 h0
  refine ⟨⟨⟨re.fns.Store ⟨ty.rtype, SpecificType schema.Type (getLogicalType schema)⟩ f⟩,
      ?_, ?_⟩, ?_, ⟨⟨re.fns.Store ⟨ty.rtype, schema0.Type⟩ f⟩, ?_, ?_⟩, ?_⟩
  · simp only [EncoderTypeConverter.RegisterEncoderTypeConversion,
      reflect2_TypeOf_RType_of_dynType s ty hs]
  · simp only [EncoderTypeConverter.Convert, hk, reflect2_RTypeOf_of_dynType v ty hv,
      SyncMap.Load_Store_self]
  · simp only [DecoderTypeConverter.Convert,
      DecoderTypeConverter.RegisterDecoderTypeConversion, hk, SyncMap.Load_Store_self]
    rcases hg : g cell with p | ⟨w, _ | e⟩ <;> rfl
  · simp only [EncoderTypeConverter.RegisterEncoderTypeConversion,
      reflect2_TypeOf_RType_of_dynType s ty hs]
  · simp only [EncoderTypeConverter.Convert, hk0, reflect2_RTypeOf_of_dynType v ty hv,
      SyncMap.Load_Store_self]
  · simp only [DecoderTypeConverter.Convert,
      DecoderTypeConverter.RegisterDecoderTypeConversion, hk0, SyncMap.Load_Store_self]
    rcases hg : g cell with p | ⟨w, _ | e⟩ <;> rfl

/-- Witness of `Convert_symmetric_dispatch`: the key "fixed.decimal" of
`TestEncoderTypeConversion_RecordMap` and `TestDecoderTypeConversion_FixedRat`
is found from the schema on both sides. -/
theorem Convert_symmetric_dispatch_witness :
    (∃ re', NewEncoderTypeConverter.RegisterEncoderTypeConversion (.string "")
          (SpecificType "fixed" "decimal") stringToRat = .ok re' ∧
        re'.Convert (.string "346.8") ⟨"fixed", "decimal"⟩ = stringToRat (.string "346.8")) ∧
      (NewDecoderTypeConverter.RegisterDecoderTypeConversion
          (SpecificType "fixed" "decimal") constSeven).Convert ⟨"fixed", "decimal"⟩
          (.ptrAny (.bigRat 3468 10))
        = .ok (none, .ptrAny (.int 7)) :=
  have h := Convert_symmetric_dispatch NewEncoderTypeConverter NewDecoderTypeConverter
    ⟨"fixed", "decimal"⟩ ⟨"int", ""⟩ (.string "") (.string "346.8") (.bigRat 3468 10) .string
    stringToRat constSeven (by decide) (by decide) (by rfl) (by rfl)
  ⟨h.1, h.2.1.trans (by rfl)⟩

/-! ## Registration leaves other keys alone -/

/-- C15: registering a function under the key (token of `s`, `d`) leaves the
result of `Convert` unchanged for every value and schema whose key differs
from it in the token or in the destination type; and when one sample is
registered with `f1` for `d1` and with `f2` for a different `d2`, a value of
that shape converts with `f1` under a schema of composite type `d1` and with
`f2` under a schema of composite type `d2`. -/
theorem encoder_Convert_by_destination (r : EncoderTypeConverter) (s v u : GoAny)
    (d d1 d2 : Type_) (f f1 f2 : ConversionFn) (schema schema1 schema2 : Schema)
    (t : GoType) (hs : s.dynType = some t)
    (hne : reflect2_RTypeOf v ≠ t.rtype ∨ conversionType schema ≠ d)
    (hu : u.dynType = some t) (hd12 : d1 ≠ d2)
    (h1 : conversionType schema1 = d1) (h2 : conversionType schema2 = d2) :
    (∃ r', r.RegisterEncoderTypeConversion s d f = .ok r' ∧
        r'.Convert v schema = r.Convert v schema) ∧
      (∃ ra rb, r.RegisterEncoderTypeConversion s d1 f1 = .ok ra ∧
        ra.RegisterEncoderTypeConversion s d2 f2 = .ok rb ∧
        rb.Convert u schema1 = f1 u ∧ rb.Convert u schema2 = f2 u) := by
  constructor
  · refine ⟨⟨r.fns.Store ⟨t.rtype, d⟩ f⟩, ?_, ?_⟩
    · simp only [EncoderTypeConverter.RegisterEncoderTypeConversion,
        reflect2_TypeOf_RType_of_dynType s t hs]
    · have hk : (⟨reflect2_RTypeOf v, conversionType schema⟩ : encoderTypeConversion)
          ≠ ⟨t.rtype, d⟩ := by
        intro e
        injection e with ha hb
        rcases hne with h | h
        · exact h ha
        · exact h hb
      simp only [EncoderTypeConverter.Convert, SyncMap.Load_Store_of_ne _ _ _ _ hk]
  · have hk : (⟨t.rtype, d1⟩ : encoderTypeConversion) ≠ ⟨t.rtype, d2⟩ := by
      intro e
      injection e with _ hb
      exact hd12 hb
    refine ⟨⟨r.fns.Store ⟨t.rtype, d1⟩ f1⟩,
      ⟨(r.fns.Store ⟨t.rtype, d1⟩ f1).Store ⟨t.rtype, d2⟩ f2⟩, ?_, ?_, ?_, ?_⟩
    · simp only [EncoderTypeConverter.RegisterEncoderTypeConversion,
        reflect2_TypeOf_RType_of_dynType s t hs]
    · simp only [EncoderTypeConverter.RegisterEncoderTypeConversion,
        reflect2_TypeOf_RType_of_dynType s t hs]
    · simp only [EncoderTypeConverter.Convert, h1, reflect2_RTypeOf_of_dynType u t hu,
        SyncMap.Load_Store_of_ne _ _ _ _ hk, SyncMap.Load_Store_self]
    · simp only [EncoderTypeConverter.Convert, h2, reflect2_RTypeOf_of_dynType u t hu,
        SyncMap.Load_Store_self]

/-- Witness of `encoder_Convert_by_destination`: registering a conversion of
strings to "int" does not touch strings encoded as "string", and a string
converts with `stringToRat` for "fixed.decimal" but with `stringToInt` for
"int". -/
theorem encoder_Convert_by_destination_witness :
    (∃ r', stringRegistry.RegisterEncoderTypeConversion (.string "") "int" constSeven
          = .ok r' ∧
        r'.Convert (.string "abc") ⟨"string", ""⟩
          = stringRegistry.Convert (.string "abc") ⟨"string", ""⟩) ∧
      (∃ ra rb,
        stringRegistry.RegisterEncoderTypeConversion (.string "") "fixed.decimal" stringToRat
          = .ok ra ∧
        ra.RegisterEncoderTypeConversion (.string "") "int" stringToInt = .ok rb ∧
        rb.Convert (.string "abc") ⟨"fixed", "decimal"⟩ = stringToRat (.string "abc") ∧
        rb.Convert (.string "abc") ⟨"int", ""⟩ = stringToInt (.string "abc")) :=
  encoder_Convert_by_destination stringRegistry (.string "") (.string "abc") (.string "abc")
    "int" "fixed.decimal" "int" constSeven stringToRat stringToInt ⟨"string", ""⟩
    ⟨"fixed", "decimal"⟩ ⟨"int", ""⟩ .string (by rfl) (Or.inr (by decide)) (by rfl)
    (by decide) (by decide) (by decide)

/-! ## The registry after `Convert` -/

theorem storeAll_nil {κ ν : Type} [DecidableEq κ] (m : SyncMap κ ν) :
    Reentrant.storeAll m [] = m := rfl

theorem Load_quiet_entries {κ : Type} [DecidableEq κ] (es : List (κ × ConversionFn))
    (key : κ) :
    SyncMap.Load ⟨es.map fun e => (e.1, (Reentrant.ConversionFn.quiet e.2 :
        Reentrant.ConversionFn κ))⟩ key
      = (SyncMap.Load ⟨es⟩ key).map Reentrant.ConversionFn.quiet := by
  induction es with
  | nil => rfl
  | cons e es ih =>
    simp only [SyncMap.Load, List.map_cons, List.find?_cons] at ih ⊢
    by_cases hk : e.1 = key
    · simp [hk]
    · simp only [hk, decide_False]
      exact ih

/-- On a registry of functions that make no registration, `Convert` of this
section returns what the encoder's `Convert` returns and leaves the registry
as it was. -/
theorem encoder_Convert_ofQuiet (r : EncoderTypeConverter) (v : GoAny) (schema : Schema) :
    (Reentrant.EncoderTypeConverter.ofQuiet r).Convert v schema
      = (r.Convert v schema, Reentrant.EncoderTypeConverter.ofQuiet r) := by
  simp only [Reentrant.EncoderTypeConverter.Convert, Reentrant.EncoderTypeConverter.ofQuiet,
    EncoderTypeConverter.Convert, Load_quiet_entries]
  cases r.fns.Load ⟨reflect2_RTypeOf v, conversionType schema⟩ <;> rfl

/-- On a registry of functions that make no registration, `Convert` of this
section returns what the decoder's `Convert` returns and leaves the registry
as it was. -/
theorem decoder_Convert_ofQuiet (r : DecoderTypeConverter) (schema : Schema) (slot : GoAny) :
    (Reentrant.DecoderTypeConverter.ofQuiet r).Convert schema slot
      = (r.Convert schema slot, Reentrant.DecoderTypeConverter.ofQuiet r) := by
  cases slot <;> try rfl
  · rename_i cell
    simp only [Reentrant.DecoderTypeConverter.Convert, Reentrant.DecoderTypeConverter.ofQuiet,
      DecoderTypeConverter.Convert, Load_quiet_entries]
    cases r.fns.Load ⟨conversionType schema⟩ with
    | none => rfl
    | some fn =>
      simp only [Option.map_some', Reentrant.ConversionFn.quiet, Reentrant.ConversionFn.run,
        storeAll_nil]
      rcases fn cell with p | ⟨val, _ | e⟩ <;> rfl
  · simp only [Reentrant.DecoderTypeConverter.Convert, Reentrant.DecoderTypeConverter.ofQuiet,
      DecoderTypeConverter.Convert, Load_quiet_entries]
    cases r.fns.Load ⟨conversionType schema⟩ <;> rfl

/-- C16, as stated, fails: a stored conversion function may itself register.
With a function for (string, "int") that registers `constSeven` under its own
key while it runs, `Convert("abc", int)` returns "abc", the registry after the
call is not the registry before it, and the same `Convert` made again
dispatches to `constSeven` and returns 7; likewise for the decoder with a
function for "long". -/
theorem Convert_keeps_registry_counterexample :
    (Reentrant.selfReplacingEncoder.Convert (.string "abc") ⟨"int", ""⟩).1
        = .ok (.string "abc", none) ∧
      ((Reentrant.selfReplacingEncoder.Convert (.string "abc") ⟨"int", ""⟩).2.Convert
          (.string "abc") ⟨"int", ""⟩).1 = .ok (.int 7, none) ∧
      (Reentrant.selfReplacingEncoder.Convert (.string "abc") ⟨"int", ""⟩).2
        ≠ Reentrant.selfReplacingEncoder ∧
      (Reentrant.selfReplacingDecoder.Convert ⟨"long", ""⟩ (.ptrAny (.int64 5))).1
        = .ok (none, .ptrAny (.int64 5)) ∧
      ((Reentrant.selfReplacingDecoder.Convert ⟨"long", ""⟩ (.ptrAny (.int64 5))).2.Convert
          ⟨"long", ""⟩ (.ptrAny (.int64 5))).1 = .ok (none, .ptrAny (.int 7)) ∧
      (Reentrant.selfReplacingDecoder.Convert ⟨"long", ""⟩ (.ptrAny (.int64 5))).2
        ≠ Reentrant.selfReplacingDecoder := by
  have e1 : (Reentrant.selfReplacingEncoder.Convert (.string "abc") ⟨"int", ""⟩).1
      = .ok (.string "abc", none) := by rfl
  have e2 : ((Reentrant.selfReplacingEncoder.Convert (.string "abc") ⟨"int", ""⟩).2.Convert
      (.string "abc") ⟨"int", ""⟩).1 = .ok (.int 7, none) := by rfl
  have d1 : (Reentrant.selfReplacingDecoder.Convert ⟨"long", ""⟩ (.ptrAny (.int64 5))).1
      = .ok (none, .ptrAny (.int64 5)) := by rfl
  have d2 : ((Reentrant.selfReplacingDecoder.Convert ⟨"long", ""⟩ (.ptrAny (.int64 5))).2.Convert
      ⟨"long", ""⟩ (.ptrAny (.int64 5))).1 = .ok (none, .ptrAny (.int 7)) := by rfl
  refine ⟨e1, e2, ?_, d1, d2, ?_⟩
  · intro h
    rw [h, e1] at e2
    cases e2
  · intro h
    rw [h, d1] at d2
    cases d2

/-- C16, amended: `Convert` itself stores nothing. When the lookup misses, or
the function it invokes makes no registration while it runs, the registry
after `Convert` is exactly the registry before it, whether the function
succeeds, fails or panics, and the same `Convert` made again has the same
outcome (`re`, `rd`). When the invoked function registers conversions, the
mapping afterwards is the earlier one with exactly those registrations stored
(`re'`, `rd'`). -/
theorem Convert_keeps_registry
    (re : Reentrant.EncoderTypeConverter) (rd : Reentrant.DecoderTypeConverter)
    (v : GoAny) (schema : Schema) (slot : GoAny)
    (re' : Reentrant.EncoderTypeConverter) (rd' : Reentrant.DecoderTypeConverter)
    (v' : GoAny) (schema' : Schema) (cell' : GoAny)
    (fe : Reentrant.ConversionFn encoderTypeConversion)
    (fd : Reentrant.ConversionFn decoderConversion)
    (hquiet_e : ∀ fn, re.fns.Load ⟨reflect2_RTypeOf v, conversionType schema⟩ = some fn →
      (fn.run v).2 = [])
    (hquiet_d : ∀ fn cell, slot = .ptrAny cell →
      rd.fns.Load ⟨conversionType schema⟩ = some fn → (fn.run cell).2 = [])
    (hfe : re'.fns.Load ⟨reflect2_RTypeOf v', conversionType schema'⟩ = some fe)
    (hfd : rd'.fns.Load ⟨conversionType schema'⟩ = some fd) :
    (re.Convert v schema).2 = re ∧
      (rd.Convert schema slot).2 = rd ∧
      (re.Convert v schema).2.Convert v schema = re.Convert v schema ∧
      (rd.Convert schema slot).2.Convert schema slot = rd.Convert schema slot ∧
      (re'.Convert v' schema').2 = ⟨Reentrant.storeAll re'.fns (fe.run v').2⟩ ∧
      (rd'.Convert schema' (.ptrAny cell')).2
        = ⟨Reentrant.storeAll rd'.fns (fd.run cell').2⟩ := by
  have he : (re.Convert v schema).2 = re := by
    cases hl : re.fns.Load ⟨reflect2_RTypeOf v, conversionType schema⟩ with
    | none => simp only [Reentrant.EncoderTypeConverter.Convert, hl]
    | some fn =>
      simp only [Reentrant.EncoderTypeConverter.Convert, hl, hquiet_e fn hl, storeAll_nil]
  have hd : (rd.Convert schema slot).2 = rd := by
    cases slot <;> try rfl
    · rename_i cell
      cases hl : rd.fns.Load ⟨conversionType schema⟩ with
      | none => simp only [Reentrant.DecoderTypeConverter.Convert, hl]
      | some fn =>
        have hq := hquiet_d fn cell rfl hl
        simp only [Reentrant.DecoderTypeConverter.Convert, hl, hq, storeAll_nil]
        rcases (fn.run cell).1 with p | ⟨val, _ | e⟩ <;> rfl
    · cases hl : rd.fns.Load ⟨conversionType schema⟩ <;>
        simp only [Reentrant.DecoderTypeConverter.Convert, hl]
  refine ⟨he, hd, ?_, ?_, ?_, ?_⟩
  · rw [he]
  · rw [hd]
  · simp only [Reentrant.EncoderTypeConverter.Convert, hfe]
  · simp only [Reentrant.DecoderTypeConverter.Convert, hfd]
    rcases (fd.run cell').1 with p | ⟨val, _ | e⟩ <;> rfl

/-- Witness of `Convert_keeps_registry`: registries holding the quiet
`stringToInt` and `constSeven` are left as they were by a hit, and registries
holding `thenSeven` end up with its registration stored. -/
theorem Convert_keeps_registry_witness :
    ((Reentrant.EncoderTypeConverter.ofQuiet stringRegistry).Convert (.string "abc")
        ⟨"int", ""⟩).2 = Reentrant.EncoderTypeConverter.ofQuiet stringRegistry ∧
      ((Reentrant.DecoderTypeConverter.ofQuiet
          (NewDecoderTypeConverter.RegisterDecoderTypeConversion "int" constSeven)).Convert
        ⟨"int", ""⟩ (.ptrAny (.int32 4))).2
        = Reentrant.DecoderTypeConverter.ofQuiet
          (NewDecoderTypeConverter.RegisterDecoderTypeConversion "int" constSeven) ∧
      (Reentrant.selfReplacingEncoder.Convert (.string "abc") ⟨"int", ""⟩).2
        = ⟨Reentrant.storeAll Reentrant.selfReplacingEncoder.fns
            ((Reentrant.thenSeven ⟨GoType.string.rtype, "int"⟩).run (.string "abc")).2⟩ ∧
      ((Reentrant.NewDecoderTypeConverter.RegisterDecoderTypeConversion "int"
          (Reentrant.thenSeven ⟨"int"⟩)).Convert ⟨"int", ""⟩ (.ptrAny (.int32 4))).2
        = ⟨Reentrant.storeAll
            (Reentrant.NewDecoderTypeConverter.RegisterDecoderTypeConversion "int"
              (Reentrant.thenSeven ⟨"int"⟩)).fns
            ((Reentrant.thenSeven ⟨"int"⟩).run (.int32 4)).2⟩ :=
  have hle : (Reentrant.EncoderTypeConverter.ofQuiet stringRegistry).fns.Load
      ⟨reflect2_RTypeOf (.string "abc"), conversionType ⟨"int", ""⟩⟩
      = some (Reentrant.ConversionFn.quiet stringToInt) := by rfl
  have hld : (Reentrant.DecoderTypeConverter.ofQuiet
      (NewDecoderTypeConverter.RegisterDecoderTypeConversion "int" constSeven)).fns.Load
      ⟨conversionType ⟨"int", ""⟩⟩ = some (Reentrant.ConversionFn.quiet constSeven) := by rfl
  have h := Convert_keeps_registry
    (Reentrant.EncoderTypeConverter.ofQuiet stringRegistry)
    (Reentrant.DecoderTypeConverter.ofQuiet
      (NewDecoderTypeConverter.RegisterDecoderTypeConversion "int" constSeven))
    (.string "abc") ⟨"int", ""⟩ (.ptrAny (.int32 4))
    Reentrant.selfReplacingEncoder
    (Reentrant.NewDecoderTypeConverter.RegisterDecoderTypeConversion "int"
      (Reentrant.thenSeven ⟨"int"⟩))
    (.string "abc") ⟨"int", ""⟩ (.int32 4)
    (Reentrant.thenSeven ⟨GoType.string.rtype, "int"⟩) (Reentrant.thenSeven ⟨"int"⟩)
    (fun fn hfn => by
      rw [hle] at hfn
      cases hfn
      rfl)
    (fun fn cell _ hfn => by
      rw [hld] at hfn
      cases hfn
      rfl)
    (by rfl) (by rfl)
  ⟨h.1, h.2.1, h.2.2.2.2.1, h.2.2.2.2.2⟩

/-! ## No fallback to the base type -/

/-- C18: for a schema with base type `t` and a non-empty logical type, a
registry that holds a function under the bare key `t` and none under
`SpecificType(t, lt)` does not apply it: the encoder's `Convert` returns the
value unchanged with a nil error and the decoder's `Convert` leaves the slot
unchanged with a nil error. -/
theorem Convert_no_fallback (re : EncoderTypeConverter) (rd : DecoderTypeConverter)
    (schema : Schema) (v cell : GoAny) (fe fd : ConversionFn)
    (hlt : getLogicalType schema ≠ "")
    (hbare_e : re.fns.Load ⟨reflect2_RTypeOf v, schema.Type⟩ = some fe)
    (hspec_e : re.fns.Load
      ⟨reflect2_RTypeOf v, SpecificType schema.Type (getLogicalType schema)⟩ = none)
    (hbare_d : rd.fns.Load ⟨schema.Type⟩ = some fd)
    (hspec_d : rd.fns.Load ⟨SpecificType schema.Type (getLogicalType schema)⟩ = none) :
    re.Convert v schema = .ok (v, none) ∧
      rd.Convert schema (.ptrAny cell) = .ok (none, .ptrAny cell) := by
  have _ := hbare_e
  have _ := hbare_d
  have hk := conversionType_of_nonempty schema hlt
  constructor
  · simp only [EncoderTypeConverter.Convert, hk, hspec_e]
  · simp only [DecoderTypeConverter.Convert, hk, hspec_d]

/-- Witness of `Convert_no_fallback`: functions registered for the bare
"fixed" are not applied to a "fixed" schema with the logical type "decimal";
`stringToInt` would have turned "abc" into 3 and `constSeven` the slot into 7. -/
theorem Convert_no_fallback_witness :
    bareFixedEncoder.Convert (.string "abc") ⟨"fixed", "decimal"⟩
        = .ok (.string "abc", none) ∧
      bareFixedDecoder.Convert ⟨"fixed", "decimal"⟩ (.ptrAny (.bigRat 3468 10))
        = .ok (none, .ptrAny (.bigRat 3468 10)) :=
  Convert_no_fallback bareFixedEncoder bareFixedDecoder ⟨"fixed", "decimal"⟩ (.string "abc")
    (.bigRat 3468 10) stringToInt constSeven (by decide) (by rfl) (by rfl) (by rfl) (by rfl)

/-! ## Registration frame of the decoder -/

/-- C19: for source types `t ≠ t'`, registering a function under `t` leaves
the outcome of the decoder's `Convert`, returned error and final slot value,
unchanged for every schema whose composite type is `t'` and every slot. -/
theorem decoder_register_frame (r : DecoderTypeConverter) (t t' : Type_) (f : ConversionFn)
    (schema : Schema) (slot : GoAny) (hne : t ≠ t') (hd : conversionType schema = t') :
    (r.RegisterDecoderTypeConversion t f).Convert schema slot = r.Convert schema slot := by
  have hk : (⟨t'⟩ : decoderConversion) ≠ ⟨t⟩ := by
    intro e
    injection e with h
    exact hne h.symm
  cases slot <;>
    simp only [DecoderTypeConverter.Convert, DecoderTypeConverter.RegisterDecoderTypeConversion,
      hd, SyncMap.Load_Store_of_ne _ _ _ _ hk]

/-- Witness of `decoder_register_frame`: registering `constSeven` for "int"
does not change how a slot decoded from "boolean" is converted. -/
theorem decoder_register_frame_witness :
    (booleanRegistry.RegisterDecoderTypeConversion "int" constSeven).Convert
        ⟨"boolean", ""⟩ (.ptrAny (.bool true))
      = booleanRegistry.Convert ⟨"boolean", ""⟩ (.ptrAny (.bool true)) :=
  decoder_register_frame booleanRegistry "int" "boolean" constSeven ⟨"boolean", ""⟩
    (.ptrAny (.bool true)) (by decide) (by decide)

end Avro
